import Mathlib

/-!
Verification of the value encoder, execution context and error mapping of the
go-libddwaf runtime adapter.

The repository sources available here are the test suites (`waf_test.go`) and
the disabled-platform stub that carries the `RunError` enumeration and
`goRunError`.  The encoder, handle and context implementations live in a cgo
file that is not part of the source tree, so those components are modelled
from the specification and cross-checked against the expectations of the
repository's own `TestEncoder`, `TestMatching` and `TestMetrics` tables.
-/

namespace Waf

/-! ## RunError enumeration (embedded from `waf_disabled_target.go`) -/

/-- `type RunError int` — the WAF run-error enumeration, an integer type. -/
abbrev RunError := Int

/-- `ErrInternal RunError = iota + 1` -/
def ErrInternal : RunError := 1

/-- `ErrInvalidObject` -/
def ErrInvalidObject : RunError := 2

/-- `ErrInvalidArgument` -/
def ErrInvalidArgument : RunError := 3

/-- `ErrTimeout` -/
def ErrTimeout : RunError := 4

/-- `ErrOutOfMemory` -/
def ErrOutOfMemory : RunError := 5

/-- `ErrEmptyRuleAddresses` -/
def ErrEmptyRuleAddresses : RunError := 6

/-- Modelled from the spec: the foreign engine's return-code type
(`wafReturnCode`), an integer type whose constant definitions are in the cgo
file absent from the source tree.  Only their pairwise distinctness matters
to the theorems below. -/
abbrev wafReturnCode := Int

/-- Modelled from the spec: `wafErrInternal`, the engine's internal-error code. -/
def wafErrInternal : wafReturnCode := -3

/-- Modelled from the spec: `wafErrInvalidObject`. -/
def wafErrInvalidObject : wafReturnCode := -2

/-- Modelled from the spec: `wafErrInvalidArgument`. -/
def wafErrInvalidArgument : wafReturnCode := -1

/-- Modelled from the spec: `wafOK`, the engine's success code. -/
def wafOK : wafReturnCode := 0

/-- A Go `error` value as returned by `goRunError`: either a member of the
`RunError` enumeration or a generic formatted error (`fmt.Errorf`). -/
inductive goError where
  | runErr (e : RunError)
  | unknown (msg : String)
deriving DecidableEq

/-- Embedded from `waf_disabled_target.go`: `goRunError` maps a few engine
return codes to `RunError` values and everything else to a formatted
"unknown waf return code" error. -/
def goRunError (rc : wafReturnCode) : goError :=
  if rc = wafErrInternal then .runErr ErrInternal
  else if rc = wafErrInvalidObject then .runErr ErrInvalidObject
  else if rc = wafErrInvalidArgument then .runErr ErrInvalidArgument
  else .unknown ("unknown waf return code " ++ toString rc)

/-- Whether a `goError` is a member of the closed `RunError` enumeration
{Internal, InvalidObject, InvalidArgument, Timeout, OutOfMemory,
EmptyRuleAddresses}. -/
def isRunErrorMember : goError → Bool
  | .runErr e => e ∈ [ErrInternal, ErrInvalidObject, ErrInvalidArgument,
                      ErrTimeout, ErrOutOfMemory, ErrEmptyRuleAddresses]
  | .unknown _ => false

/-! ## The bounded encoder

Modelled from the spec (§4.1): the encoder implementation is absent from the
source tree (only `TestEncoder` is present); the model below follows the
spec's supported shapes, scalar stringification, depth policy and truncation
order, and reproduces the rows of the repository's `TestEncoder` table. -/

/-- A native Go value, restricted to the shapes the encoder distinguishes:
scalars, strings/byte-slices, pointers (possibly nil), ordered sequences,
key/value collections (keys are themselves values and may be unsupported),
structs with exported and unexported fields, and the unsupported shapes
(channels, functions, nil interface values). -/
inductive GoValue where
  | boolV (b : Bool)
  | intV (n : Int)
  | uintV (n : Nat)
  | floatV (q : ℚ)
  | strV (s : String)
  | ptrV (target : Option GoValue)
  | arrV (elems : List GoValue)
  | mapV (entries : List (GoValue × GoValue))
  | structV (fields : List (String × Bool × GoValue))
  | chanV
  | funcV
  | nilV

/-- The bounded tree representation handed to the foreign engine: string
leaves, arrays, and maps with string keys. -/
inductive WafObject where
  | str (s : String)
  | arr (elems : List WafObject)
  | map (entries : List (String × WafObject))

mutual

/-- Decidable equality of bounded objects (the automatic derivation does not
handle this nested inductive). -/
def WafObject.decEq : (a b : WafObject) → Decidable (a = b)
  | .str s, .str t =>
    match String.decEq s t with
    | isTrue h => isTrue (by rw [h])
    | isFalse h => isFalse (fun he => h (by cases he; rfl))
  | .str _, .arr _ => isFalse (fun he => by cases he)
  | .str _, .map _ => isFalse (fun he => by cases he)
  | .arr _, .str _ => isFalse (fun he => by cases he)
  | .arr xs, .arr ys =>
    match WafObject.decEqList xs ys with
    | isTrue h => isTrue (by rw [h])
    | isFalse h => isFalse (fun he => h (by cases he; rfl))
  | .arr _, .map _ => isFalse (fun he => by cases he)
  | .map _, .str _ => isFalse (fun he => by cases he)
  | .map _, .arr _ => isFalse (fun he => by cases he)
  | .map xs, .map ys =>
    match WafObject.decEqEntries xs ys with
    | isTrue h => isTrue (by rw [h])
    | isFalse h => isFalse (fun he => h (by cases he; rfl))
termination_by structural a => a

/-- Decidable equality of lists of bounded objects. -/
def WafObject.decEqList : (xs ys : List WafObject) → Decidable (xs = ys)
  | [], [] => isTrue rfl
  | [], _ :: _ => isFalse (fun he => by cases he)
  | _ :: _, [] => isFalse (fun he => by cases he)
  | x :: xs, y :: ys =>
    match WafObject.decEq x y with
    | isFalse h => isFalse (fun he => by cases he; exact h rfl)
    | isTrue h1 =>
      match WafObject.decEqList xs ys with
      | isFalse h => isFalse (fun he => by cases he; exact h rfl)
      | isTrue h2 => isTrue (by rw [h1, h2])
termination_by structural xs => xs

/-- Decidable equality of lists of keyed bounded objects. -/
def WafObject.decEqEntries : (xs ys : List (String × WafObject)) → Decidable (xs = ys)
  | [], [] => isTrue rfl
  | [], _ :: _ => isFalse (fun he => by cases he)
  | _ :: _, [] => isFalse (fun he => by cases he)
  | (k, v) :: xs, (k2, v2) :: ys =>
    match String.decEq k k2 with
    | isFalse h => isFalse (fun he => by cases he; exact h rfl)
    | isTrue h1 =>
      match WafObject.decEq v v2 with
      | isFalse h => isFalse (fun he => by cases he; exact h rfl)
      | isTrue h2 =>
        match WafObject.decEqEntries xs ys with
        | isFalse h => isFalse (fun he => by cases he; exact h rfl)
        | isTrue h3 => isTrue (by rw [h1, h2, h3])
termination_by structural xs => xs

end

instance : DecidableEq WafObject := WafObject.decEq

/-- Encoding errors: unsupported value shapes and exhausted depth budget. -/
inductive EncodeError where
  | unsupportedValue
  | maxDepth
deriving DecidableEq

instance {ε α : Type} [DecidableEq ε] [DecidableEq α] : DecidableEq (Except ε α) :=
  fun a b =>
    match a, b with
    | .ok x, .ok y =>
      match decEq x y with
      | isTrue h => isTrue (by rw [h])
      | isFalse h => isFalse (fun he => h (by cases he; rfl))
    | .ok _, .error _ => isFalse (fun he => by cases he)
    | .error _, .ok _ => isFalse (fun he => by cases he)
    | .error x, .error y =>
      match decEq x y with
      | isTrue h => isTrue (by rw [h])
      | isFalse h => isFalse (fun he => h (by cases he; rfl))

/-- Modelled from the spec: the encoder's immutable limits triple
(`objectMaxDepth`, `stringMaxSize`, `containerMaxSize`). -/
structure encoder where
  objectMaxDepth : Nat
  stringMaxSize : Nat
  containerMaxSize : Nat

/-- Modelled from the spec: rounding of floating-point values to the nearest
integer with halves rounded away from zero — `⌊q + 1/2⌋` for nonnegative `q`
and `⌈q - 1/2⌉ = -⌊1/2 - q⌋` for negative `q`.  With `q = num/den`
(`den > 0`) these are the integer divisions below, whose dividends are
nonnegative, so the definition evaluates by kernel reduction; the theorem
`roundHalfAwayFromZero_eq` states the floor/ceiling form. -/
def roundHalfAwayFromZero (q : ℚ) : Int :=
  if 0 ≤ q.num then (2 * q.num + (q.den : Int)) / (2 * (q.den : Int))
  else -(((q.den : Int) - 2 * q.num) / (2 * (q.den : Int)))

/-- Truncation of a string to its first `n` characters (the spec's
`stringMaxSize` policy), over the character list so that it evaluates by
kernel reduction even for large `n`. -/
def truncate (n : Nat) (s : String) : String := ⟨s.data.take n⟩

/-- Modelled from the spec: conversion of a map key to its string form — a
string (truncated to `stringMaxSize`) or a pointer chain ending in a string;
every other key shape is unsupported and `none` is returned. -/
def asKeyString (e : encoder) : GoValue → Option String
  | .strV s => some (truncate e.stringMaxSize s)
  | .ptrV (some v) => asKeyString e v
  | _ => none

mutual

/-- Modelled from the spec: the recursive encoding of one value at integer
depth budget `d`.  Scalars never consume depth; containers refuse to encode
once the budget is negative; pointers dereference transparently with a nil
pointer unsupported; channels, functions and nil interface values are
unsupported. -/
def encodeVal (e : encoder) (d : Int) (v : GoValue) : Except EncodeError WafObject :=
  match v with
  | .boolV b => .ok (.str (if b then "true" else "false"))
  | .intV n => .ok (.str (toString n))
  | .uintV n => .ok (.str (toString n))
  | .floatV q => .ok (.str (toString (roundHalfAwayFromZero q)))
  | .strV s => .ok (.str (truncate e.stringMaxSize s))
  | .ptrV none => .error .unsupportedValue
  | .ptrV (some v) => encodeVal e d v
  | .arrV es =>
    if d < 0 then .error .maxDepth
    else .ok (.arr (encodeArr e (d - 1) es (min es.length e.containerMaxSize)))
  | .mapV kvs =>
    if d < 0 then .error .maxDepth
    else .ok (.map (encodeMap e (d - 1) kvs (min kvs.length e.containerMaxSize)))
  | .structV fs =>
    if d < 0 then .error .maxDepth
    else .ok (.map (encodeStruct e (d - 1) fs (min fs.length e.containerMaxSize)))
  | .chanV => .error .unsupportedValue
  | .funcV => .error .unsupportedValue
  | .nilV => .error .unsupportedValue
termination_by structural v

/-- Modelled from the spec: array/slice elements are visited in order; an
element that fails to encode is dropped without error; once the room left
(`r`, initially `min(length, containerMaxSize)`) is exhausted the remaining
elements are skipped. -/
def encodeArr (e : encoder) (d : Int) (es : List GoValue) (r : Nat) : List WafObject :=
  match es, r with
  | _, 0 => []
  | [], _ + 1 => []
  | v :: rest, r + 1 =>
    match encodeVal e d v with
    | .ok w => w :: encodeArr e d rest r
    | .error _ => encodeArr e d rest (r + 1)
termination_by structural es

/-- Modelled from the spec: map entries are visited in order; an entry whose
key is not string-convertible or whose value fails to encode is dropped
without error; duplicate keys (also truncation-induced ones) are preserved. -/
def encodeMap (e : encoder) (d : Int) (kvs : List (GoValue × GoValue)) (r : Nat) :
    List (String × WafObject) :=
  match kvs, r with
  | _, 0 => []
  | [], _ + 1 => []
  | (k, v) :: rest, r + 1 =>
    match asKeyString e k, encodeVal e d v with
    | some ks, .ok w => (ks, w) :: encodeMap e d rest r
    | some _, .error _ => encodeMap e d rest (r + 1)
    | none, _ => encodeMap e d rest (r + 1)
termination_by structural kvs

/-- Modelled from the spec: struct fields are visited in order; unexported
fields are skipped silently; exported fields whose value fails to encode are
dropped without error; field names become map keys. -/
def encodeStruct (e : encoder) (d : Int) (fs : List (String × Bool × GoValue)) (r : Nat) :
    List (String × WafObject) :=
  match fs, r with
  | _, 0 => []
  | [], _ + 1 => []
  | (name, exported, v) :: rest, r + 1 =>
    if exported then
      match encodeVal e d v with
      | .ok w => (truncate e.stringMaxSize name, w) :: encodeStruct e d rest r
      | .error _ => encodeStruct e d rest (r + 1)
    else encodeStruct e d rest (r + 1)
termination_by structural fs

end

/-- Modelled from the spec: `Encode` starts the recursion with the full
depth budget `objectMaxDepth` (root at depth 0). -/
def Encode (e : encoder) (v : GoValue) : Except EncodeError WafObject :=
  encodeVal e (e.objectMaxDepth : Int) v

/-- The depth budget that the immediate elements of a top-level container
are encoded with. -/
def childDepth (e : encoder) : Int := (e.objectMaxDepth : Int) - 1

/-- Whether an encoding attempt succeeded. -/
def encOk (r : Except EncodeError WafObject) : Bool :=
  match r with
  | .ok _ => true
  | .error _ => false

/-- An array element is supported (kept) at depth `d` iff it encodes. -/
def supportedElem (e : encoder) (d : Int) (v : GoValue) : Bool :=
  encOk (encodeVal e d v)

/-- A map entry is supported (kept) at depth `d` iff its key converts to a
string and its value encodes. -/
def supportedEntry (e : encoder) (d : Int) (kv : GoValue × GoValue) : Bool :=
  (asKeyString e kv.1).isSome && encOk (encodeVal e d kv.2)

/-- A struct field is supported (kept) at depth `d` iff it is exported and
its value encodes. -/
def supportedField (e : encoder) (d : Int) (f : String × Bool × GoValue) : Bool :=
  f.2.1 && encOk (encodeVal e d f.2.2)

/-- The unsupported input shapes named by the spec: channels, functions, nil
interface values and nil pointers. -/
def IsUnsupportedShape (v : GoValue) : Prop :=
  v = .chanV ∨ v = .funcV ∨ v = .nilV ∨ v = .ptrV none

/-- Whether a value is a container (array, map or struct). -/
def containerShape : GoValue → Bool
  | .arrV _ => true
  | .mapV _ => true
  | .structV _ => true
  | _ => false

/-- Whether a value is a scalar leaf (booleans, integers, floats, strings),
exempt from depth accounting and always encodable. -/
def scalarShape : GoValue → Bool
  | .boolV _ => true
  | .intV _ => true
  | .uintV _ => true
  | .floatV _ => true
  | .strV _ => true
  | _ => false

/-! ## Rule-set handle and execution context

Modelled from the spec (§4.3, §4.4): the handle and context implementations
are absent from the source tree (only `TestMatching`, `TestMetrics` and
`TestConcurrency` are present); the model follows the spec's lifecycle and
run semantics and is validated against those test expectations. -/

/-- Modelled from the spec: one compiled rule — an identifier plus the
engine's evaluation of its conditions against the encoded inputs. -/
structure Rule where
  id : String
  matchesOn : List (String × GoValue) → Bool

/-- Modelled from the spec: a rule-set handle owning the compiled rules;
`closed` records whether `Close()` has released the foreign state. -/
structure Handle where
  rules : List Rule
  closed : Bool

/-- Modelled from the spec: `Close()` releases the handle's foreign state. -/
def Handle.Close (h : Handle) : Handle := { h with closed := true }

/-- Modelled from the spec: one evaluation session against a handle —
shares the compiled rules, tracks which rules already matched in this
context and the cumulative runtime/timeout counters. -/
structure Context where
  rules : List Rule
  matchedIds : List String
  totalRuntimeNs : Nat
  internalRuntimeNs : Nat
  timeouts : Nat
  closed : Bool

/-- Modelled from the spec: `NewContext` on a closed handle yields a
nil/empty context rather than touching freed state; on an open handle it
yields a fresh context with zeroed counters. -/
def Handle.NewContext (h : Handle) : Option Context :=
  if h.closed then none
  else some { rules := h.rules, matchedIds := [], totalRuntimeNs := 0,
              internalRuntimeNs := 0, timeouts := 0, closed := false }

/-- Modelled from the spec: one `Run` call.  A closed context no-ops; empty
inputs yield an immediate empty success without an engine call; a
non-positive timeout surfaces `ErrTimeout` and bumps the cumulative timeout
counter; otherwise the engine reports the rules matching the inputs that
have not already matched in this context (one match per rule per context),
and the engine-internal runtime `internalNs` plus the bindings overhead
`overheadNs` are accumulated into the cumulative counters (the wall-clock
total of a run is its internal time plus the overhead around the call). -/
def Context.Run (ctx : Context) (inputs : List (String × GoValue)) (timeoutNs : Int)
    (internalNs overheadNs : Nat) : Context × Except RunError (List String) :=
  if ctx.closed then (ctx, .ok [])
  else if inputs.isEmpty then (ctx, .ok [])
  else if timeoutNs ≤ 0 then ({ ctx with timeouts := ctx.timeouts + 1 }, .error ErrTimeout)
  else
    let newly := (ctx.rules.filter
      (fun r => r.matchesOn inputs && !(ctx.matchedIds.contains r.id))).map Rule.id
    let ctx2 : Context := { ctx with
      matchedIds := ctx.matchedIds ++ newly
      totalRuntimeNs := ctx.totalRuntimeNs + (internalNs + overheadNs)
      internalRuntimeNs := ctx.internalRuntimeNs + internalNs }
    (ctx2, .ok newly)

/-- One requested run: the inputs plus the timing of the engine call. -/
structure RunCall where
  inputs : List (String × GoValue)
  timeoutNs : Int
  internalNs : Nat
  overheadNs : Nat

/-- A whole lifetime of a context: the sequence of its `Run` calls. -/
def runAll (ctx : Context) (calls : List RunCall) : Context :=
  calls.foldl (fun c k => (c.Run k.inputs k.timeoutNs k.internalNs k.overheadNs).1) ctx

/-- The test suite's Arachni rule: matches when the address "my.input"
carries the string "Arachni". -/
def arachniRule : Rule :=
  ⟨"ua0-600-12x", fun inputs => inputs.any fun kv =>
    kv.1 == "my.input" && (match kv.2 with | .strV s => s == "Arachni" | _ => false)⟩

/-! ## Supporting lemmas -/

/-- The executable rounding agrees with the mathematical floor/ceiling
description of round-half-away-from-zero. -/
theorem roundHalfAwayFromZero_eq (q : ℚ) :
    roundHalfAwayFromZero q = if 0 ≤ q then ⌊q + 1 / 2⌋ else ⌈q - 1 / 2⌉ := by
  have hd0 : (q.den : ℚ) ≠ 0 := Nat.cast_ne_zero.mpr q.den_nz
  have hqd : q * (q.den : ℚ) = (q.num : ℚ) := by
    nth_rewrite 1 [← Rat.num_div_den q]
    exact div_mul_cancel₀ _ hd0
  have h2d : ((2 * q.den : Nat) : ℚ) ≠ 0 :=
    Nat.cast_ne_zero.mpr (Nat.mul_ne_zero two_ne_zero q.den_nz)
  rw [roundHalfAwayFromZero]
  simp only [Rat.num_nonneg]
  split_ifs with h
  · have h1 : q + 1 / 2 = ((2 * q.num + (q.den : Int) : Int) : ℚ) / ((2 * q.den : Nat) : ℚ) := by
      rw [eq_div_iff h2d]
      push_cast
      linear_combination (2 : ℚ) * hqd
    rw [h1, Rat.floor_intCast_div_natCast]
    push_cast
    rfl
  · have hceil : ⌈q - 1 / 2⌉ = -⌊1 / 2 - q⌋ := by
      rw [show (1 / 2 - q : ℚ) = -(q - 1 / 2) by ring, Int.floor_neg, neg_neg]
    have h1 : 1 / 2 - q = ((((q.den : Int) - 2 * q.num) : Int) : ℚ) / ((2 * q.den : Nat) : ℚ) := by
      rw [eq_div_iff h2d]
      push_cast
      linear_combination (-2 : ℚ) * hqd
    rw [hceil, h1, Rat.floor_intCast_div_natCast]
    push_cast
    rfl

/-- The number of array elements kept is the room left capped by the number
of encodable elements. -/
theorem encodeArr_length (e : encoder) (d : Int) :
    ∀ (es : List GoValue) (r : Nat),
      (encodeArr e d es r).length = min r (es.countP (supportedElem e d))
  | [], r => by cases r <;> simp [encodeArr]
  | v :: rest, 0 => by simp [encodeArr]
  | v :: rest, r + 1 => by
    rcases hv : encodeVal e d v with err | w
    · simp [encodeArr, hv, encodeArr_length e d rest (r + 1), List.countP_cons,
        supportedElem, encOk]
    · simp [encodeArr, hv, encodeArr_length e d rest r, List.countP_cons,
        supportedElem, encOk]
      omega

/-- The number of map entries kept is the room left capped by the number of
supported entries. -/
theorem encodeMap_length (e : encoder) (d : Int) :
    ∀ (kvs : List (GoValue × GoValue)) (r : Nat),
      (encodeMap e d kvs r).length = min r (kvs.countP (supportedEntry e d))
  | [], r => by cases r <;> simp [encodeMap]
  | (k, v) :: rest, 0 => by simp [encodeMap]
  | (k, v) :: rest, r + 1 => by
    rcases hk : asKeyString e k with _ | ks
    · simp [encodeMap, hk, encodeMap_length e d rest (r + 1), List.countP_cons,
        supportedEntry]
    · rcases hv : encodeVal e d v with err | w
      · simp [encodeMap, hk, hv, encodeMap_length e d rest (r + 1), List.countP_cons,
          supportedEntry, encOk]
      · simp [encodeMap, hk, hv, encodeMap_length e d rest r, List.countP_cons,
          supportedEntry, encOk]
        omega

/-- The number of struct fields kept is the room left capped by the number
of supported (exported, encodable) fields. -/
theorem encodeStruct_length (e : encoder) (d : Int) :
    ∀ (fs : List (String × Bool × GoValue)) (r : Nat),
      (encodeStruct e d fs r).length = min r (fs.countP (supportedField e d))
  | [], r => by cases r <;> simp [encodeStruct]
  | (name, exported, v) :: rest, 0 => by simp [encodeStruct]
  | (name, exported, v) :: rest, r + 1 => by
    rcases exported with _ | _
    · simp [encodeStruct, encodeStruct_length e d rest (r + 1), List.countP_cons,
        supportedField]
    · rcases hv : encodeVal e d v with err | w
      · simp [encodeStruct, hv, encodeStruct_length e d rest (r + 1), List.countP_cons,
          supportedField, encOk]
      · simp [encodeStruct, hv, encodeStruct_length e d rest r, List.countP_cons,
          supportedField, encOk]
        omega

/-- Encoding a top-level array never errors and produces the truncated
element list. -/
theorem Encode_arrV (e : encoder) (es : List GoValue) :
    Encode e (.arrV es) =
      .ok (.arr (encodeArr e (childDepth e) es (min es.length e.containerMaxSize))) := by
  have h : ¬((e.objectMaxDepth : Int) < 0) := by omega
  simp [Encode, encodeVal, h, childDepth]

/-- Encoding a top-level map never errors and produces the truncated entry
list. -/
theorem Encode_mapV (e : encoder) (kvs : List (GoValue × GoValue)) :
    Encode e (.mapV kvs) =
      .ok (.map (encodeMap e (childDepth e) kvs (min kvs.length e.containerMaxSize))) := by
  have h : ¬((e.objectMaxDepth : Int) < 0) := by omega
  simp [Encode, encodeVal, h, childDepth]

/-- Encoding a top-level struct never errors and produces the truncated
field list. -/
theorem Encode_structV (e : encoder) (fs : List (String × Bool × GoValue)) :
    Encode e (.structV fs) =
      .ok (.map (encodeStruct e (childDepth e) fs (min fs.length e.containerMaxSize))) := by
  have h : ¬((e.objectMaxDepth : Int) < 0) := by omega
  simp [Encode, encodeVal, h, childDepth]

/-- Unsupported shapes fail to encode at every depth. -/
theorem encodeVal_unsupported (e : encoder) (d : Int) (v : GoValue)
    (hv : IsUnsupportedShape v) : encodeVal e d v = .error .unsupportedValue := by
  rcases hv with rfl | rfl | rfl | rfl <;> simp [encodeVal]

/-- Unsupported shapes are not string-convertible map keys either. -/
theorem asKeyString_unsupported (e : encoder) (v : GoValue)
    (hv : IsUnsupportedShape v) : asKeyString e v = none := by
  rcases hv with rfl | rfl | rfl | rfl <;> simp [asKeyString]

/-- Scalar leaves encode successfully at every depth. -/
theorem encodeVal_scalar_ok (e : encoder) (d : Int) (v : GoValue)
    (hv : scalarShape v = true) : encOk (encodeVal e d v) = true := by
  cases v <;> simp_all [scalarShape, encodeVal, encOk]

/-! ## Claims -/

/-- C1: for every container (array, map, or struct) of length `L` encoded
under container cap `C`, `Encode` yields exactly `min(L, min(C, S))`
entries, where `S` counts the supported elements of the container — the
elements accepted while visiting in order until the cap closes, the claim's
`count_of_supported_elements_in_first_C_of_L` — and dropped unsupported
elements never cause a top-level error: the result is always `.ok`. -/
theorem C1_container_entry_count (e : encoder) :
    (∀ es : List GoValue, ∃ ws,
      Encode e (.arrV es) = .ok (.arr ws) ∧
      ws.length = min es.length (min e.containerMaxSize
        (es.countP (supportedElem e (childDepth e))))) ∧
    (∀ kvs : List (GoValue × GoValue), ∃ ws,
      Encode e (.mapV kvs) = .ok (.map ws) ∧
      ws.length = min kvs.length (min e.containerMaxSize
        (kvs.countP (supportedEntry e (childDepth e))))) ∧
    (∀ fs : List (String × Bool × GoValue), ∃ ws,
      Encode e (.structV fs) = .ok (.map ws) ∧
      ws.length = min fs.length (min e.containerMaxSize
        (fs.countP (supportedField e (childDepth e))))) := by
  refine ⟨fun es => ⟨_, Encode_arrV e es, ?_⟩, fun kvs => ⟨_, Encode_mapV e kvs, ?_⟩,
    fun fs => ⟨_, Encode_structV e fs, ?_⟩⟩
  · rw [encodeArr_length]
    omega
  · rw [encodeMap_length]
    omega
  · rw [encodeStruct_length]
    omega

/-- C3: every unsupported input shape (channel, function, nil top-level
value, nil pointer) is a hard `errUnsupportedValue` error at the top level;
nested inside any container — an array element, a map value, a map key, or
an exported struct field — the offending element is dropped, the encoding
succeeds, and the container's entry count accounts only for the elements
actually kept. -/
theorem C3_unsupported_value_handling (e : encoder) :
    (∀ v, IsUnsupportedShape v → Encode e v = .error .unsupportedValue) ∧
    (∀ pre post u, IsUnsupportedShape u → ∃ ws,
      Encode e (.arrV (pre ++ u :: post)) = .ok (.arr ws) ∧
      ws.length = min (pre ++ u :: post).length (min e.containerMaxSize
        (pre.countP (supportedElem e (childDepth e)) +
          post.countP (supportedElem e (childDepth e))))) ∧
    (∀ (pre post : List (GoValue × GoValue)) (k u : GoValue), IsUnsupportedShape u → ∃ ws,
      Encode e (.mapV (pre ++ (k, u) :: post)) = .ok (.map ws) ∧
      ws.length = min (pre ++ (k, u) :: post).length (min e.containerMaxSize
        (pre.countP (supportedEntry e (childDepth e)) +
          post.countP (supportedEntry e (childDepth e))))) ∧
    (∀ (pre post : List (GoValue × GoValue)) (u v : GoValue), IsUnsupportedShape u → ∃ ws,
      Encode e (.mapV (pre ++ (u, v) :: post)) = .ok (.map ws) ∧
      ws.length = min (pre ++ (u, v) :: post).length (min e.containerMaxSize
        (pre.countP (supportedEntry e (childDepth e)) +
          post.countP (supportedEntry e (childDepth e))))) ∧
    (∀ (pre post : List (String × Bool × GoValue)) (name : String) (u : GoValue),
      IsUnsupportedShape u → ∃ ws,
      Encode e (.structV (pre ++ (name, true, u) :: post)) = .ok (.map ws) ∧
      ws.length = min (pre ++ (name, true, u) :: post).length (min e.containerMaxSize
        (pre.countP (supportedField e (childDepth e)) +
          post.countP (supportedField e (childDepth e))))) := by
  refine ⟨?_, ?_, ?_, ?_, ?_⟩
  · intro v hv
    exact encodeVal_unsupported e _ v hv
  · intro pre post u hu
    refine ⟨_, Encode_arrV e _, ?_⟩
    rw [encodeArr_length, List.countP_append, List.countP_cons]
    have hu0 : supportedElem e (childDepth e) u = false := by
      simp [supportedElem, encodeVal_unsupported e _ u hu, encOk]
    simp only [hu0]
    simp
  · intro pre post k u hu
    refine ⟨_, Encode_mapV e _, ?_⟩
    rw [encodeMap_length, List.countP_append, List.countP_cons]
    have hu0 : supportedEntry e (childDepth e) (k, u) = false := by
      simp [supportedEntry, encodeVal_unsupported e _ u hu, encOk]
    simp only [hu0]
    simp
  · intro pre post u v hu
    refine ⟨_, Encode_mapV e _, ?_⟩
    rw [encodeMap_length, List.countP_append, List.countP_cons]
    have hu0 : supportedEntry e (childDepth e) (u, v) = false := by
      simp [supportedEntry, asKeyString_unsupported e u hu]
    simp only [hu0]
    simp
  · intro pre post name u hu
    refine ⟨_, Encode_structV e _, ?_⟩
    rw [encodeStruct_length, List.countP_append, List.countP_cons]
    have hu0 : supportedField e (childDepth e) (name, true, u) = false := by
      simp [supportedField, encodeVal_unsupported e _ u hu, encOk]
    simp only [hu0]
    simp

/-- C8: scalar encoding is the fixed stringification — integers (signed and
unsigned) render as their decimal string, booleans as the literal strings
"true"/"false", and floating-point values round to the nearest integer with
halves away from zero (`⌊q + 1/2⌋` for nonnegative `q`, `⌈q - 1/2⌉`
otherwise) and render as that integer's decimal string; in particular
33.12345 renders as "33" and 33.62345 as "34". -/
theorem C8_scalar_stringification (e : encoder) :
    (∀ n : Int, Encode e (.intV n) = .ok (.str (toString n))) ∧
    (∀ n : Nat, Encode e (.uintV n) = .ok (.str (toString n))) ∧
    Encode e (.boolV true) = .ok (.str "true") ∧
    Encode e (.boolV false) = .ok (.str "false") ∧
    (∀ q : ℚ, Encode e (.floatV q) =
      .ok (.str (toString (if 0 ≤ q then ⌊q + 1 / 2⌋ else ⌈q - 1 / 2⌉)))) ∧
    Encode e (.floatV (mkRat 3312345 100000)) = .ok (.str "33") ∧
    Encode e (.floatV (mkRat 3362345 100000)) = .ok (.str "34") := by
  refine ⟨fun n => rfl, fun n => rfl, rfl, rfl, fun q => ?_, ?_, ?_⟩
  · simp [Encode, encodeVal, roundHalfAwayFromZero_eq]
  · simp only [Encode, encodeVal]
    decide
  · simp only [Encode, encodeVal]
    decide

/-- C9: empty and duplicate map keys are preserved as separate entries —
a map with one empty-string key encodes to a one-entry map (not an error);
any map whose entries are all supported and within the container cap keeps
exactly one encoded entry per original entry, with no merging or
deduplication even when key truncation to `stringMaxSize` makes distinct
keys collide (the five keys k1..k5 under `stringMaxSize = 1` all truncate
to "k" and still give five entries). -/
theorem C9_map_keys_preserved (e : encoder) :
    (∀ v : GoValue, encOk (encodeVal e (childDepth e) v) = true →
      1 ≤ e.containerMaxSize →
      ∃ w, Encode e (.mapV [(.strV "", v)]) = .ok (.map [("", w)])) ∧
    (∀ kvs : List (GoValue × GoValue),
      (∀ kv ∈ kvs, supportedEntry e (childDepth e) kv = true) →
      kvs.length ≤ e.containerMaxSize →
      ∃ ws, Encode e (.mapV kvs) = .ok (.map ws) ∧ ws.length = kvs.length) ∧
    Encode ⟨10, 1, 1000⟩ (.mapV [(.strV "k1", .strV "v1"), (.strV "k2", .strV "v2"),
        (.strV "k3", .strV "v3"), (.strV "k4", .strV "v4"), (.strV "k5", .strV "v5")]) =
      .ok (.map [("k", .str "v"), ("k", .str "v"), ("k", .str "v"), ("k", .str "v"),
        ("k", .str "v")]) := by
  refine ⟨?_, ?_, by decide⟩
  · intro v hok hc
    obtain ⟨w, hw⟩ : ∃ w, encodeVal e (childDepth e) v = .ok w := by
      rcases h : encodeVal e (childDepth e) v with err | w
      · rw [h] at hok
        simp [encOk] at hok
      · exact ⟨w, rfl⟩
    refine ⟨w, ?_⟩
    rw [Encode_mapV]
    simp [encodeMap, asKeyString, truncate, hw, Nat.min_eq_left hc]
  · intro kvs hall hlen
    refine ⟨_, Encode_mapV e kvs, ?_⟩
    rw [encodeMap_length, List.countP_eq_length.mpr hall]
    omega

/-- C2 counterexample: with depth cap 0 the array `[1, 2, 3, 4, [1, 2, 3, 4]]`
(the repository's own "array-max-depth" `TestEncoder` row, expected length
4) encodes to exactly four entries — the container nested one level beyond
the cap is dropped from its parent — and not to five entries ending in an
empty container as the claim predicts. -/
theorem C2_depth_counterexample :
    Encode ⟨0, 4096, 1000⟩ (.arrV [.intV 1, .intV 2, .intV 3, .intV 4,
        .arrV [.intV 1, .intV 2, .intV 3, .intV 4]]) =
      .ok (.arr [.str "1", .str "2", .str "3", .str "4"]) ∧
    Encode ⟨0, 4096, 1000⟩ (.arrV [.intV 1, .intV 2, .intV 3, .intV 4,
        .arrV [.intV 1, .intV 2, .intV 3, .intV 4]]) ≠
      .ok (.arr [.str "1", .str "2", .str "3", .str "4", .arr []]) := by
  exact ⟨by decide, by decide⟩

/-- C2 (amended): a container nested one level beyond the depth cap fails to
encode (`errMaxDepth`) and is dropped from its parent without error, while
the parent container at the last allowed depth is still emitted and counted,
retaining its scalar elements — scalars being exempt from depth accounting. -/
theorem C2_depth_cap_drops_deep_container :
    (∀ (e : encoder) (d : Int) (v : GoValue), containerShape v = true → d < 0 →
      encodeVal e d v = .error .maxDepth) ∧
    (∀ (e : encoder) (ss : List GoValue) (c : GoValue),
      (∀ v ∈ ss, scalarShape v = true) → containerShape c = true →
      e.objectMaxDepth = 0 → ss.length + 1 ≤ e.containerMaxSize →
      ∃ ws, Encode e (.arrV (ss ++ [c])) = .ok (.arr ws) ∧ ws.length = ss.length) := by
  have hdrop : ∀ (e : encoder) (d : Int) (v : GoValue), containerShape v = true → d < 0 →
      encodeVal e d v = .error .maxDepth := by
    intro e d v hc hd
    cases v <;> simp_all [containerShape, encodeVal]
  refine ⟨hdrop, ?_⟩
  intro e ss c hss hc hdepth hcap
  refine ⟨_, Encode_arrV e _, ?_⟩
  rw [encodeArr_length, List.countP_append, List.countP_cons]
  have hchild : childDepth e < 0 := by
    rw [childDepth, hdepth]
    omega
  have hcdrop : supportedElem e (childDepth e) c = false := by
    simp [supportedElem, hdrop e _ c hc hchild, encOk]
  have hsscount : ss.countP (supportedElem e (childDepth e)) = ss.length :=
    List.countP_eq_length.mpr fun v hv => encodeVal_scalar_ok e _ v (hss v hv)
  simp only [hcdrop, hsscount, List.countP_nil]
  simp
  omega

/-- Witness for C2 (amended), at the repository's "array-max-depth" row:
four scalars and one nested array under depth cap 0 keep exactly the four
scalars. -/
theorem C2_witness :
    (∀ v ∈ [GoValue.intV 1, .intV 2, .intV 3, .intV 4], scalarShape v = true) ∧
    containerShape (GoValue.arrV [.intV 1, .intV 2, .intV 3, .intV 4]) = true ∧
    (∃ ws, Encode ⟨0, 4096, 1000⟩ (.arrV ([GoValue.intV 1, .intV 2, .intV 3, .intV 4] ++
        [.arrV [.intV 1, .intV 2, .intV 3, .intV 4]])) = .ok (.arr ws) ∧
      ws.length = 4) :=
  ⟨by decide, by decide,
    C2_depth_cap_drops_deep_container.2 ⟨0, 4096, 1000⟩
      [GoValue.intV 1, .intV 2, .intV 3, .intV 4]
      (.arrV [.intV 1, .intV 2, .intV 3, .intV 4]) (by decide) (by decide) rfl (by decide)⟩

/-- Witness for C3: under the default limits, a channel nested between two
supported strings in an array is dropped and the two strings kept; a map
entry whose value is a channel is dropped, and a struct's exported field
holding a channel is dropped, each leaving the one supported entry. -/
theorem C3_witness :
    IsUnsupportedShape GoValue.chanV ∧
    (∃ ws, Encode ⟨10, 4096, 1000⟩
        (.arrV ([GoValue.strV "supported"] ++ GoValue.chanV :: [GoValue.strV "supported"])) =
        .ok (.arr ws) ∧
      ws.length = min ([GoValue.strV "supported"] ++ GoValue.chanV ::
          [GoValue.strV "supported"] : List GoValue).length
        (min (1000 : Nat)
          (List.countP (supportedElem ⟨10, 4096, 1000⟩ (childDepth ⟨10, 4096, 1000⟩))
            [GoValue.strV "supported"] +
          List.countP (supportedElem ⟨10, 4096, 1000⟩ (childDepth ⟨10, 4096, 1000⟩))
            [GoValue.strV "supported"]))) ∧
    (∃ ws, Encode ⟨10, 4096, 1000⟩
        (.mapV ([(GoValue.strV "k0", GoValue.strV "supported")] ++
          (GoValue.strV "k1", GoValue.chanV) :: [])) = .ok (.map ws) ∧
      ws.length = min ([(GoValue.strV "k0", GoValue.strV "supported")] ++
          (GoValue.strV "k1", GoValue.chanV) :: [] : List (GoValue × GoValue)).length
        (min (1000 : Nat)
          (List.countP (supportedEntry ⟨10, 4096, 1000⟩ (childDepth ⟨10, 4096, 1000⟩))
            [(GoValue.strV "k0", GoValue.strV "supported")] +
          List.countP (supportedEntry ⟨10, 4096, 1000⟩ (childDepth ⟨10, 4096, 1000⟩)) []))) ∧
    (∃ ws, Encode ⟨10, 4096, 1000⟩
        (.structV ([("F0", true, GoValue.strV "supported")] ++
          ("F1", true, GoValue.chanV) :: [])) = .ok (.map ws) ∧
      ws.length = min ([("F0", true, GoValue.strV "supported")] ++
          ("F1", true, GoValue.chanV) :: [] : List (String × Bool × GoValue)).length
        (min (1000 : Nat)
          (List.countP (supportedField ⟨10, 4096, 1000⟩ (childDepth ⟨10, 4096, 1000⟩))
            [("F0", true, GoValue.strV "supported")] +
          List.countP (supportedField ⟨10, 4096, 1000⟩ (childDepth ⟨10, 4096, 1000⟩)) []))) :=
  ⟨Or.inl rfl,
    (C3_unsupported_value_handling ⟨10, 4096, 1000⟩).2.1
      [GoValue.strV "supported"] [GoValue.strV "supported"] GoValue.chanV (Or.inl rfl),
    (C3_unsupported_value_handling ⟨10, 4096, 1000⟩).2.2.1
      [(GoValue.strV "k0", GoValue.strV "supported")] [] (GoValue.strV "k1") GoValue.chanV
      (Or.inl rfl),
    (C3_unsupported_value_handling ⟨10, 4096, 1000⟩).2.2.2.2
      [("F0", true, GoValue.strV "supported")] [] "F1" GoValue.chanV (Or.inl rfl)⟩

/-- Witness for C9: the repository's "map-with-empty-key-string" row — a map
with one empty-string key and value 1 encodes to a one-entry map. -/
theorem C9_witness :
    encOk (encodeVal ⟨10, 4096, 1000⟩ (childDepth ⟨10, 4096, 1000⟩) (.intV 1)) = true ∧
    (1 : Nat) ≤ 1000 ∧
    (∃ w, Encode ⟨10, 4096, 1000⟩ (.mapV [(.strV "", .intV 1)]) = .ok (.map [("", w)])) :=
  ⟨by decide, by decide,
    (C9_map_keys_preserved ⟨10, 4096, 1000⟩).1 (.intV 1) (by decide) (by decide)⟩

/-- C4: after `Close()` on a rule-set handle, every `NewContext()` call
returns the empty/nil context instead of operating on freed state. -/
theorem C4_newContext_after_close (h : Handle) : (h.Close).NewContext = none := by
  simp [Handle.Close, Handle.NewContext]

/-- C5 counterexample: a `Run` call with timeout 0 but empty inputs returns
an immediate empty success without consulting the engine — `ErrTimeout` is
not surfaced and the cumulative timeout counter stays untouched, so the
claim's "every Run call with timeout ≤ 0 yields ErrTimeout and bumps the
counter" fails on the empty-inputs shortcut. -/
theorem C5_counterexample :
    (Context.Run ⟨[], [], 0, 0, 0, false⟩ [] 0 0 0).2 = .ok [] ∧
    (Context.Run ⟨[], [], 0, 0, 0, false⟩ [] 0 0 0).2 ≠ .error ErrTimeout ∧
    (Context.Run ⟨[], [], 0, 0, 0, false⟩ [] 0 0 0).1.timeouts = 0 := by
  refine ⟨rfl, by decide, rfl⟩

/-- C5 (amended): every `Run` call on an open context with non-empty inputs
and timeout ≤ 0 surfaces `ErrTimeout` — never a success with empty output —
and increments the context's cumulative timeout counter by exactly 1. -/
theorem C5_zero_timeout (ctx : Context) (inputs : List (String × GoValue)) (t : Int)
    (iNs oNs : Nat) (hopen : ctx.closed = false) (hne : inputs ≠ []) (ht : t ≤ 0) :
    (ctx.Run inputs t iNs oNs).2 = .error ErrTimeout ∧
    (ctx.Run inputs t iNs oNs).1.timeouts = ctx.timeouts + 1 := by
  have hne2 : inputs.isEmpty = false := by
    cases inputs with
    | nil => exact absurd rfl hne
    | cons a l => rfl
  constructor <;> simp [Context.Run, hopen, hne2, ht]

/-- Witness for C5 (amended): a fresh open context run on the Arachni input
with timeout 0. -/
theorem C5_witness :
    (Context.Run ⟨[], [], 0, 0, 0, false⟩ [("my.input", .strV "Arachni")] 0 1 1).2 =
      .error ErrTimeout ∧
    (Context.Run ⟨[], [], 0, 0, 0, false⟩ [("my.input", .strV "Arachni")] 0 1 1).1.timeouts =
      0 + 1 :=
  C5_zero_timeout ⟨[], [], 0, 0, 0, false⟩ [("my.input", .strV "Arachni")] 0 1 1 rfl
    (List.cons_ne_nil _ _) (le_refl 0)

/-- Each `Run` call increases the cumulative counters by amounts `a` (total)
and `b ≤ a` (internal): zero on the no-op/timeout paths, `internalNs +
overheadNs` and `internalNs` on the success path. -/
theorem Run_counter_step (ctx : Context) (inputs : List (String × GoValue)) (t : Int)
    (i o : Nat) :
    ∃ a b : Nat, b ≤ a ∧
      ((ctx.Run inputs t i o).1).totalRuntimeNs = ctx.totalRuntimeNs + a ∧
      ((ctx.Run inputs t i o).1).internalRuntimeNs = ctx.internalRuntimeNs + b := by
  rw [Context.Run]
  split_ifs with h1 h2 h3
  · exact ⟨0, 0, le_refl 0, rfl, rfl⟩
  · exact ⟨0, 0, le_refl 0, rfl, rfl⟩
  · exact ⟨0, 0, le_refl 0, rfl, rfl⟩
  · exact ⟨i + o, i, Nat.le_add_right i o, rfl, rfl⟩

/-- C6: the cumulative total-runtime and internal-runtime counters are
monotone non-decreasing under every `Run` call; a fresh context starts with
`total ≥ internal` (both zero); and across any whole lifetime — a fresh or
invariant-satisfying context followed by any sequence of `Run` calls — the
counters only grow and `cumulative_total ≥ cumulative_internal` holds
afterwards, in particular after every successful `Run`. -/
theorem C6_runtime_counters :
    (∀ (ctx : Context) (inputs : List (String × GoValue)) (t : Int) (i o : Nat),
      ctx.totalRuntimeNs ≤ ((ctx.Run inputs t i o).1).totalRuntimeNs ∧
      ctx.internalRuntimeNs ≤ ((ctx.Run inputs t i o).1).internalRuntimeNs ∧
      (ctx.internalRuntimeNs ≤ ctx.totalRuntimeNs →
        ((ctx.Run inputs t i o).1).internalRuntimeNs ≤
          ((ctx.Run inputs t i o).1).totalRuntimeNs)) ∧
    (∀ (h : Handle) (ctx : Context), h.NewContext = some ctx →
      ctx.internalRuntimeNs ≤ ctx.totalRuntimeNs) ∧
    (∀ (ctx : Context) (calls : List RunCall),
      ctx.internalRuntimeNs ≤ ctx.totalRuntimeNs →
      ctx.totalRuntimeNs ≤ (runAll ctx calls).totalRuntimeNs ∧
      ctx.internalRuntimeNs ≤ (runAll ctx calls).internalRuntimeNs ∧
      (runAll ctx calls).internalRuntimeNs ≤ (runAll ctx calls).totalRuntimeNs) := by
  have step : ∀ (ctx : Context) (inputs : List (String × GoValue)) (t : Int) (i o : Nat),
      ctx.totalRuntimeNs ≤ ((ctx.Run inputs t i o).1).totalRuntimeNs ∧
      ctx.internalRuntimeNs ≤ ((ctx.Run inputs t i o).1).internalRuntimeNs ∧
      (ctx.internalRuntimeNs ≤ ctx.totalRuntimeNs →
        ((ctx.Run inputs t i o).1).internalRuntimeNs ≤
          ((ctx.Run inputs t i o).1).totalRuntimeNs) := by
    intro ctx inputs t i o
    obtain ⟨a, b, hba, hta, hib⟩ := Run_counter_step ctx inputs t i o
    rw [hta, hib]
    exact ⟨Nat.le_add_right _ _, Nat.le_add_right _ _, fun hinv => by omega⟩
  have seq : ∀ (calls : List RunCall) (ctx : Context),
      ctx.internalRuntimeNs ≤ ctx.totalRuntimeNs →
      ctx.totalRuntimeNs ≤ (runAll ctx calls).totalRuntimeNs ∧
      ctx.internalRuntimeNs ≤ (runAll ctx calls).internalRuntimeNs ∧
      (runAll ctx calls).internalRuntimeNs ≤ (runAll ctx calls).totalRuntimeNs := by
    intro calls
    induction calls with
    | nil => exact fun ctx hinv => ⟨le_refl _, le_refl _, hinv⟩
    | cons k rest ih =>
      intro ctx hinv
      obtain ⟨h1, h2, h3⟩ := step ctx k.inputs k.timeoutNs k.internalNs k.overheadNs
      obtain ⟨g1, g2, g3⟩ :=
        ih ((ctx.Run k.inputs k.timeoutNs k.internalNs k.overheadNs).1) (h3 hinv)
      refine ⟨le_trans h1 ?_, le_trans h2 ?_, ?_⟩
      · simpa [runAll] using g1
      · simpa [runAll] using g2
      · simpa [runAll] using g3
  refine ⟨step, ?_, fun ctx calls hinv => seq calls ctx hinv⟩
  intro h ctx hctx
  rw [Handle.NewContext] at hctx
  by_cases hcl : h.closed = true
  · rw [if_pos hcl] at hctx
    cases hctx
  · rw [if_neg hcl] at hctx
    cases hctx
    exact le_refl 0

/-- Witness for C6: a fresh context created from an open one-rule handle,
run once successfully — the counters grow by the engine-internal time plus
overhead and the invariant holds afterwards. -/
theorem C6_witness :
    ((⟨[], [], 0, 0, 0, false⟩ : Context).internalRuntimeNs ≤
      (⟨[], [], 0, 0, 0, false⟩ : Context).totalRuntimeNs) ∧
    ((⟨[], [], 0, 0, 0, false⟩ : Context).totalRuntimeNs ≤
      (runAll ⟨[], [], 0, 0, 0, false⟩ [⟨[("my.input", .strV "x")], 1000, 5, 3⟩]).totalRuntimeNs ∧
    (⟨[], [], 0, 0, 0, false⟩ : Context).internalRuntimeNs ≤
      (runAll ⟨[], [], 0, 0, 0, false⟩ [⟨[("my.input", .strV "x")], 1000, 5, 3⟩]).internalRuntimeNs ∧
    (runAll ⟨[], [], 0, 0, 0, false⟩ [⟨[("my.input", .strV "x")], 1000, 5, 3⟩]).internalRuntimeNs ≤
      (runAll ⟨[], [], 0, 0, 0, false⟩ [⟨[("my.input", .strV "x")], 1000, 5, 3⟩]).totalRuntimeNs) :=
  ⟨by decide,
    C6_runtime_counters.2.2 ⟨[], [], 0, 0, 0, false⟩
      [⟨[("my.input", .strV "x")], 1000, 5, 3⟩] (by decide)⟩

/-- C7: within one execution context, a rule that matches in one `Run` is
excluded from matching again in any later `Run`: on an open context holding
a not-yet-matched rule that matches the inputs, running the same inputs
twice yields a non-empty match list the first time and an empty one the
second time. -/
theorem C7_one_match_per_context (ctx : Context) (inputs : List (String × GoValue))
    (t t2 : Int) (i o i2 o2 : Nat)
    (hopen : ctx.closed = false) (hne : inputs ≠ []) (ht : 0 < t) (ht2 : 0 < t2)
    (hmatch : ∃ r ∈ ctx.rules, r.matchesOn inputs = true ∧
      ctx.matchedIds.contains r.id = false) :
    (∃ ms, (ctx.Run inputs t i o).2 = .ok ms ∧ ms ≠ []) ∧
    (((ctx.Run inputs t i o).1).Run inputs t2 i2 o2).2 = .ok [] := by
  obtain ⟨rules, mids, tot, intr, tos, closed⟩ := ctx
  simp only [Context.closed] at hopen
  subst hopen
  have hne2 : inputs.isEmpty = false := by
    cases inputs with
    | nil => exact absurd rfl hne
    | cons a l => rfl
  have hto : ¬ (t ≤ 0) := not_le.mpr ht
  have hto2 : ¬ (t2 ≤ 0) := not_le.mpr ht2
  obtain ⟨r, hr, hm, hc⟩ := hmatch
  simp only [Context.rules, Context.matchedIds] at hr hc
  have hcm : r.id ∉ mids := by simpa using hc
  have hrun1 : Context.Run ⟨rules, mids, tot, intr, tos, false⟩ inputs t i o =
      (⟨rules, mids ++ (rules.filter
          (fun r => r.matchesOn inputs && !(mids.contains r.id))).map Rule.id,
        tot + (i + o), intr + i, tos, false⟩,
       .ok ((rules.filter
          (fun r => r.matchesOn inputs && !(mids.contains r.id))).map Rule.id)) := by
    rw [Context.Run, if_neg (by simp), if_neg (by simp [hne2]), if_neg hto]
  have hrfil : r ∈ rules.filter (fun r => r.matchesOn inputs && !(mids.contains r.id)) :=
    List.mem_filter.mpr ⟨hr, by simp [hm, hcm]⟩
  constructor
  · refine ⟨_, by rw [hrun1], ?_⟩
    exact List.ne_nil_of_mem (List.mem_map_of_mem Rule.id hrfil)
  · rw [hrun1]
    rw [Context.Run, if_neg (by simp), if_neg (by simp [hne2]), if_neg hto2]
    have hfil2 : rules.filter (fun r2 => r2.matchesOn inputs &&
        !((mids ++ (rules.filter
          (fun r => r.matchesOn inputs && !(mids.contains r.id))).map Rule.id).contains
            r2.id)) = [] := by
      apply List.filter_eq_nil_iff.mpr
      intro r2 hr2
      by_cases hm2 : r2.matchesOn inputs = true
      · have hin : r2.id ∈ mids ++ (rules.filter
            (fun r => r.matchesOn inputs && !(mids.contains r.id))).map Rule.id := by
          by_cases hcc : r2.id ∈ mids
          · exact List.mem_append_left _ hcc
          · have hr2fil : r2 ∈ rules.filter
                (fun r => r.matchesOn inputs && !(mids.contains r.id)) :=
              List.mem_filter.mpr ⟨hr2, by simp [hm2, hcc]⟩
            exact List.mem_append_right _ (List.mem_map_of_mem Rule.id hr2fil)
        intro hpred
        simp only [Bool.and_eq_true, Bool.not_eq_true'] at hpred
        exact absurd hin (by simpa using hpred.2)
      · intro hpred
        simp only [Bool.and_eq_true] at hpred
        exact hm2 hpred.1
    simp only [hfil2, List.map_nil]

/-- Witness for C7: a fresh context over the Arachni rule run twice on the
identical matching input — non-empty matches first, empty matches second. -/
theorem C7_witness :
    (∃ ms, (Context.Run ⟨[arachniRule], [], 0, 0, 0, false⟩
        [("my.input", .strV "Arachni")] 1000 7 3).2 = .ok ms ∧ ms ≠ []) ∧
    (((Context.Run ⟨[arachniRule], [], 0, 0, 0, false⟩
        [("my.input", .strV "Arachni")] 1000 7 3).1).Run
        [("my.input", .strV "Arachni")] 1000 7 3).2 = .ok [] :=
  C7_one_match_per_context ⟨[arachniRule], [], 0, 0, 0, false⟩
    [("my.input", .strV "Arachni")] 1000 1000 7 3 7 3 rfl (List.cons_ne_nil _ _)
    (by decide) (by decide) ⟨arachniRule, List.mem_singleton.mpr rfl, rfl, rfl⟩

/-- C10 counterexample: `goRunError` applied to the success return code
(or any code other than the three recognized error codes) yields the
generic formatted "unknown waf return code" error, which is not a member of
the `RunError` enumeration — so not every `wafReturnCode` maps onto the
enumeration. -/
theorem C10_counterexample :
    goRunError wafOK = .unknown "unknown waf return code 0" ∧
    isRunErrorMember (goRunError wafOK) = false := by
  exact ⟨by decide, by decide⟩

/-- C10 (amended): `goRunError` maps exactly the three engine error codes
`wafErrInternal`, `wafErrInvalidObject` and `wafErrInvalidArgument` onto the
`RunError` enumeration members `ErrInternal`, `ErrInvalidObject` and
`ErrInvalidArgument`; every other return code yields a generic formatted
error outside the enumeration (the Timeout, OutOfMemory and
EmptyRuleAddresses members are never produced by `goRunError`). -/
theorem C10_goRunError_mapping (rc : wafReturnCode) :
    (rc = wafErrInternal →
      goRunError rc = .runErr ErrInternal ∧ isRunErrorMember (goRunError rc) = true) ∧
    (rc = wafErrInvalidObject →
      goRunError rc = .runErr ErrInvalidObject ∧ isRunErrorMember (goRunError rc) = true) ∧
    (rc = wafErrInvalidArgument →
      goRunError rc = .runErr ErrInvalidArgument ∧ isRunErrorMember (goRunError rc) = true) ∧
    (rc ≠ wafErrInternal → rc ≠ wafErrInvalidObject → rc ≠ wafErrInvalidArgument →
      goRunError rc = .unknown ("unknown waf return code " ++ toString rc) ∧
      isRunErrorMember (goRunError rc) = false) := by
  refine ⟨?_, ?_, ?_, ?_⟩
  · rintro rfl
    exact ⟨by decide, by decide⟩
  · rintro rfl
    exact ⟨by decide, by decide⟩
  · rintro rfl
    exact ⟨by decide, by decide⟩
  · intro h1 h2 h3
    rw [goRunError, if_neg h1, if_neg h2, if_neg h3]
    exact ⟨rfl, rfl⟩

/-- Witness for C10 (amended), at the three recognized codes and one
unrecognized code. -/
theorem C10_witness :
    (goRunError wafErrInternal = .runErr ErrInternal ∧
      isRunErrorMember (goRunError wafErrInternal) = true) ∧
    (goRunError wafErrInvalidObject = .runErr ErrInvalidObject ∧
      isRunErrorMember (goRunError wafErrInvalidObject) = true) ∧
    (goRunError wafErrInvalidArgument = .runErr ErrInvalidArgument ∧
      isRunErrorMember (goRunError wafErrInvalidArgument) = true) ∧
    (goRunError wafOK = .unknown ("unknown waf return code " ++ toString wafOK) ∧
      isRunErrorMember (goRunError wafOK) = false) :=
  ⟨(C10_goRunError_mapping wafErrInternal).1 rfl,
    (C10_goRunError_mapping wafErrInvalidObject).2.1 rfl,
    (C10_goRunError_mapping wafErrInvalidArgument).2.2.1 rfl,
    (C10_goRunError_mapping wafOK).2.2.2 (by decide) (by decide) (by decide)⟩

/-! ## Validation of the spec-modelled encoder against the repository's
`TestEncoder` table (default limits `objectMaxDepth = 10`,
`stringMaxSize = 4096`, `containerMaxSize = 1000` as in the test driver). -/

/-- Scalar, string and unsupported-shape rows of `TestEncoder`. -/
theorem testEncoder_scalar_rows :
    Encode ⟨10, 4096, 1000⟩ .chanV = .error .unsupportedValue ∧
    Encode ⟨10, 4096, 1000⟩ .funcV = .error .unsupportedValue ∧
    Encode ⟨10, 4096, 1000⟩ .nilV = .error .unsupportedValue ∧
    Encode ⟨10, 4096, 1000⟩ (.ptrV none) = .error .unsupportedValue ∧
    Encode ⟨10, 4096, 1000⟩ (.ptrV (some (.intV 0))) = .ok (.str "0") ∧
    Encode ⟨10, 4096, 1000⟩ (.ptrV (some (.strV ""))) = .ok (.str "") ∧
    Encode ⟨10, 4096, 1000⟩ (.strV "hello, waf") = .ok (.str "hello, waf") ∧
    Encode ⟨10, 4096, 1000⟩ (.strV "") = .ok (.str "") ∧
    Encode ⟨10, 4096, 1000⟩ (.intV 1234) = .ok (.str "1234") ∧
    Encode ⟨10, 4096, 1000⟩ (.intV (-1234)) = .ok (.str "-1234") ∧
    Encode ⟨10, 4096, 1000⟩ (.uintV 9876) = .ok (.str "9876") ∧
    Encode ⟨10, 4096, 1000⟩ (.boolV true) = .ok (.str "true") ∧
    Encode ⟨10, 4096, 1000⟩ (.boolV false) = .ok (.str "false") ∧
    Encode ⟨10, 4096, 1000⟩ (.floatV (mkRat 3312345 100000)) = .ok (.str "33") ∧
    Encode ⟨10, 4096, 1000⟩ (.floatV (mkRat 3362345 100000)) = .ok (.str "34") ∧
    Encode ⟨10, 3, 1000⟩ (.strV "123456789") = .ok (.str "123") := by
  decide

/-- Container rows of `TestEncoder`: unsupported elements dropped, private
struct fields skipped, unsupported map keys skipped, container length cap. -/
theorem testEncoder_container_rows :
    Encode ⟨10, 4096, 1000⟩ (.arrV [.floatV (mkRat 3312345 100000), .strV "ok", .intV 27]) =
      .ok (.arr [.str "33", .str "ok", .str "27"]) ∧
    Encode ⟨10, 4096, 1000⟩
        (.arrV [.floatV (mkRat 3312345 100000), .funcV, .strV "ok", .intV 27, .nilV]) =
      .ok (.arr [.str "33", .str "ok", .str "27"]) ∧
    Encode ⟨10, 4096, 1000⟩ (.mapV [(.strV "", .intV 1)]) = .ok (.map [("", .str "1")]) ∧
    Encode ⟨10, 4096, 1000⟩ (.mapV []) = .ok (.map []) ∧
    Encode ⟨10, 4096, 1000⟩ (.structV []) = .ok (.map []) ∧
    Encode ⟨10, 4096, 1000⟩ (.structV [("a", false, .strV ""), ("b", false, .intV 0),
        ("c", false, .boolV false)]) = .ok (.map []) ∧
    Encode ⟨10, 4096, 1000⟩ (.mapV [(.strV "k1", .intV 1), (.intV 27, .strV "int key"),
        (.strV "k2", .strV "2")]) = .ok (.map [("k1", .str "1"), ("k2", .str "2")]) ∧
    Encode ⟨10, 4096, 1000⟩ (.mapV [(.strV "k1", .intV 1), (.ptrV (some (.strV "")), .strV "p"),
        (.strV "k2", .strV "2")]) =
      .ok (.map [("k1", .str "1"), ("", .str "p"), ("k2", .str "2")]) ∧
    Encode ⟨10, 4096, 1000⟩ (.structV [("Public", true, .strV "Public"),
        ("private", false, .strV "private"), ("a", false, .strV "a"), ("A", true, .strV "A")]) =
      .ok (.map [("Public", .str "Public"), ("A", .str "A")]) ∧
    Encode ⟨10, 4096, 1000⟩ (.structV [("Public", true, .strV "Public"),
        ("private", false, .strV "private"), ("a", false, .strV "a"), ("A", true, .funcV)]) =
      .ok (.map [("Public", .str "Public")]) ∧
    Encode ⟨10, 4096, 3⟩ (.arrV [.intV 1, .intV 2, .intV 3, .intV 4, .intV 5]) =
      .ok (.arr [.str "1", .str "2", .str "3"]) ∧
    Encode ⟨10, 1, 1000⟩ (.mapV [(.strV "k1", .strV "v1"), (.strV "k2", .strV "v2"),
        (.strV "k3", .strV "v3"), (.strV "k4", .strV "v4"), (.strV "k5", .strV "v5")]) =
      .ok (.map [("k", .str "v"), ("k", .str "v"), ("k", .str "v"), ("k", .str "v"),
        ("k", .str "v")]) ∧
    Encode ⟨10, 4096, 1000⟩ (.mapV [(.strV "supported", .intV 1), (.nilV, .intV 1),
        (.ptrV none, .intV 1), (.chanV, .intV 1)]) =
      .ok (.map [("supported", .str "1")]) := by
  decide

/-- The "unsupported-array-values" rows of `TestEncoder`: the cap counts
accepted elements only, and acceptance keeps visiting past dropped ones. -/
theorem testEncoder_unsupported_array_rows :
    Encode ⟨10, 4096, 1⟩ (.arrV [.strV "supported", .funcV, .strV "supported", .chanV]) =
      .ok (.arr [.str "supported"]) ∧
    Encode ⟨10, 4096, 2⟩ (.arrV [.strV "supported", .funcV, .strV "supported", .chanV]) =
      .ok (.arr [.str "supported", .str "supported"]) ∧
    Encode ⟨10, 4096, 1⟩ (.arrV [.funcV, .strV "supported", .chanV, .strV "supported"]) =
      .ok (.arr [.str "supported"]) ∧
    Encode ⟨10, 4096, 2⟩ (.arrV [.funcV, .strV "supported", .chanV, .strV "supported"]) =
      .ok (.arr [.str "supported", .str "supported"]) ∧
    Encode ⟨10, 4096, 1⟩ (.arrV [.funcV, .chanV, .strV "supported"]) =
      .ok (.arr [.str "supported"]) ∧
    Encode ⟨10, 4096, 3⟩ (.arrV [.strV "supported", .funcV, .chanV]) =
      .ok (.arr [.str "supported"]) ∧
    Encode ⟨10, 4096, 3⟩ (.arrV [.funcV, .strV "supported", .chanV]) =
      .ok (.arr [.str "supported"]) ∧
    Encode ⟨10, 4096, 3⟩ (.arrV [.funcV, .chanV, .strV "supported"]) =
      .ok (.arr [.str "supported"]) ∧
    Encode ⟨10, 4096, 2⟩ (.arrV [.funcV, .chanV, .strV "supported", .strV "supported"]) =
      .ok (.arr [.str "supported", .str "supported"]) := by
  decide

/-- The "unsupported-map-values" and "unsupported-struct-values" rows of
`TestEncoder`: entries and exported fields holding unsupported values are
dropped, and the cap counts kept entries only. -/
theorem testEncoder_unsupported_map_struct_rows :
    Encode ⟨10, 4096, 3⟩ (.mapV [(.strV "k0", .strV "supported"), (.strV "k1", .funcV),
        (.strV "k2", .chanV)]) = .ok (.map [("k0", .str "supported")]) ∧
    Encode ⟨10, 4096, 3⟩ (.mapV [(.strV "k0", .strV "supported"),
        (.strV "k1", .strV "supported"), (.strV "k2", .chanV)]) =
      .ok (.map [("k0", .str "supported"), ("k1", .str "supported")]) ∧
    Encode ⟨10, 4096, 1⟩ (.mapV [(.strV "k0", .strV "supported"),
        (.strV "k1", .strV "supported"), (.strV "k2", .chanV)]) =
      .ok (.map [("k0", .str "supported")]) ∧
    Encode ⟨10, 4096, 3⟩ (.structV [("F0", true, .strV "supported"), ("F1", true, .funcV),
        ("F2", true, .chanV)]) = .ok (.map [("F0", .str "supported")]) ∧
    Encode ⟨10, 4096, 3⟩ (.structV [("F0", true, .strV "supported"),
        ("F1", true, .strV "supported"), ("F2", true, .chanV)]) =
      .ok (.map [("F0", .str "supported"), ("F1", .str "supported")]) ∧
    Encode ⟨10, 4096, 1⟩ (.structV [("F0", true, .strV "supported"),
        ("F1", true, .strV "supported"), ("F2", true, .chanV)]) =
      .ok (.map [("F0", .str "supported")]) := by
  decide

/-- The depth rows of `TestEncoder`: under cap 0 the nested container is
dropped (length 4), under cap 1 it is kept with its scalar content
(length 5); likewise for maps and structs. -/
theorem testEncoder_depth_rows :
    Encode ⟨0, 4096, 1000⟩ (.arrV [.intV 1, .intV 2, .intV 3, .intV 4,
        .arrV [.intV 1, .intV 2, .intV 3, .intV 4]]) =
      .ok (.arr [.str "1", .str "2", .str "3", .str "4"]) ∧
    Encode ⟨1, 4096, 1000⟩ (.arrV [.intV 1, .intV 2, .intV 3, .intV 4,
        .arrV [.intV 1, .intV 2, .intV 3, .intV 4]]) =
      .ok (.arr [.str "1", .str "2", .str "3", .str "4",
        .arr [.str "1", .str "2", .str "3", .str "4"]]) ∧
    Encode ⟨0, 4096, 1000⟩ (.arrV []) = .ok (.arr []) ∧
    Encode ⟨0, 4096, 1000⟩ (.mapV [(.strV "k1", .strV "v1"), (.strV "k5", .mapV [])]) =
      .ok (.map [("k1", .str "v1")]) ∧
    Encode ⟨1, 4096, 1000⟩ (.mapV [(.strV "k1", .strV "v1"), (.strV "k5", .mapV [])]) =
      .ok (.map [("k1", .str "v1"), ("k5", .map [])]) ∧
    Encode ⟨0, 4096, 1000⟩ (.structV [("F0", true, .strV ""), ("F1", true, .structV [])]) =
      .ok (.map [("F0", .str "")]) ∧
    Encode ⟨1, 4096, 1000⟩ (.structV [("F0", true, .strV ""), ("F1", true, .structV [])]) =
      .ok (.map [("F0", .str ""), ("F1", .map [])]) ∧
    Encode ⟨0, 4096, 1000⟩ (.intV (-1234)) = .ok (.str "-1234") ∧
    Encode ⟨0, 4096, 1000⟩ (.uintV 1234) = .ok (.str "1234") ∧
    Encode ⟨0, 4096, 1000⟩ (.boolV false) = .ok (.str "false") := by
  decide

/-- Validation of the modelled context against `TestMatching` and
`TestMetrics`: nil/empty inputs give empty success; ten timeout runs leave
the cumulative timeout counter at ten; a matching run consumes the rule. -/
theorem testMatching_context_rows :
    (Context.Run ⟨[arachniRule], [], 0, 0, 0, false⟩ [] 1000000000 5 3).2 = .ok [] ∧
    (Context.Run ⟨[arachniRule], [], 0, 0, 0, false⟩
      [("my.input", .strV "go client")] 1000000000 5 3).2 = .ok [] ∧
    (Context.Run ⟨[arachniRule], [], 0, 0, 0, false⟩
      [("server.request.uri.raw", .strV "something")] 1000000000 5 3).2 = .ok [] ∧
    (Context.Run ⟨[arachniRule], [], 0, 0, 0, false⟩
      [("my.input", .strV "Arachni")] 0 5 3).2 = .error ErrTimeout ∧
    (Context.Run ⟨[arachniRule], [], 0, 0, 0, false⟩
      [("my.input", .strV "Arachni")] 1000000000 5 3).2 = .ok ["ua0-600-12x"] ∧
    (runAll ⟨[arachniRule], [], 0, 0, 0, false⟩
      (List.replicate 10 ⟨[("my.input", .strV "Arachni")], 0, 0, 0⟩)).timeouts = 10 := by
  decide

end Waf
